import Mathlib

/-!
Verification of the DENNIS DNS fan-out service (github.com/jamescun/dennis).

This file gives a shallow embedding of the orchestration-and-storage core of
the program: the Query/Lookup/Record data model (`app/models`), the
record-normalization function `RecordFromRR` (`app/models/record.go`), the
request validation (`api/v1`), the configuration validation
(`app/config/validation.go`), the file (single JSON document) storage backend
(`app/db/file`), the Redis (JSON-keyed) storage backend (`app/db/redis`), and
the Server orchestration logic (`app/server.go`).

Go machine integers are modelled as `Int`/`Nat` (all values flowing into them
here come from `uint16`/`uint32` fields or positive durations, so no overflow
arises).  Fallible Go functions returning `error` are modelled with
`Except`/`Option`.  External collaborators (the miekg/dns client, the
gofrs/uuid generator/parser, the stdlib JSON marshaller for `time.Time` and
`uuid.UUID`, and the Redis JSON command semantics) are modelled from their
stated contracts, with a doc comment naming the source each time.
-/

set_option autoImplicit false

namespace Dennis

/-- Go `time.Time` in UTC, at nanosecond resolution (unix nanoseconds).
The stdlib marshals such a value to an RFC3339Nano string and parses it back
losslessly; we keep the value abstract and model that marshalling as an
injective JSON leaf (`Json.time`). -/
structure Time where
  ns : Nat
deriving DecidableEq, Repr

/-- Go `github.com/gofrs/uuid` `UUID`: sixteen bytes. -/
structure UUID where
  bytes : List Nat
deriving DecidableEq, Repr

/-- Well-formedness of a UUID value: sixteen bytes, each below 256. -/
def UUID.wf (u : UUID) : Prop :=
  u.bytes.length = 16 ∧ ∀ b ∈ u.bytes, b < 256

instance (u : UUID) : Decidable u.wf := by
  unfold UUID.wf; infer_instance

/-- The nil (all-zero) UUID, `uuid.Nil` in gofrs/uuid. -/
def uuidNil : UUID := ⟨List.replicate 16 0⟩

/-- Modelled from the external gofrs/uuid library, `Gen.NewV7`: the first six
bytes are the big-endian unix-millisecond timestamp, bytes 6..15 are random,
then byte 6 has its high nibble forced to `0x7` (version 7) and byte 8 its two
high bits forced to `10` (RFC 4122 variant).  `ms` is the millisecond
timestamp and `rnd` the ten random bytes. -/
def uuidNewV7 (ms : Nat) (rnd : List Nat) : UUID :=
  let r := fun i => rnd.getD i 0 % 256
  ⟨[ms / 2 ^ 40 % 256, ms / 2 ^ 32 % 256, ms / 2 ^ 24 % 256,
    ms / 2 ^ 16 % 256, ms / 2 ^ 8 % 256, ms % 256,
    (r 0 % 16) + 0x70, r 1, (r 2 % 64) + 0x80, r 3,
    r 4, r 5, r 6, r 7, r 8, r 9]⟩

/-- Go `error` values as they appear in this program's storage layer:
the sentinel `db.ErrQueryNotFound`, the Redis client's `redis.Nil` sentinel,
a `fmt.Errorf("...: %w", err)` wrap, and any other plain error. -/
inductive GoError where
  | queryNotFound
  | redisNil
  | wrapped (msg : String) (err : GoError)
  | errMsg (msg : String)
deriving DecidableEq, Repr

/-- Go `errors.Is(err, target)` for the sentinel targets used in this
program: it unwraps `fmt.Errorf` (`%w`) chains and compares against the
sentinel. -/
def errorsIs : GoError → GoError → Bool
  | .wrapped _ e, t => errorsIs e t
  | .queryNotFound, .queryNotFound => true
  | .redisNil, .redisNil => true
  | .errMsg m, .errMsg m' => m = m'
  | _, _ => false

/-- Record is a DNS record queried from a DNS resolver as part of a Lookup
(`app/models/record.go`).  Field order and zero values follow the Go struct:
`TTL`, `Priority`, `Weight`, `Port` are Go `int`s, `Tag` a string, `Content`
a string slice. -/
structure Record where
  TTL : Int
  Priority : Int
  Weight : Int
  Port : Int
  Tag : String
  Content : List String
deriving DecidableEq, Repr

/-- Lookup is a single lookup against a single DNS resolver
(`app/models/lookup.go`): resolver name, round-trip time in milliseconds,
optional error rcode string, records, completion timestamp. -/
structure Lookup where
  Resolver : String
  RTT : Int
  Error : String
  Records : List Record
  ResolvedAt : Time
deriving DecidableEq, Repr

/-- Query is a user request to look up a name of a given DNS record type
against each configured resolver (`app/models/query.go`). -/
structure Query where
  ID : UUID
  «Type» : String
  Name : String
  Lookups : List Lookup
  CreatedAt : Time
  FinishedAt : Option Time
deriving DecidableEq, Repr

/-- DNS resource records as handed to `RecordFromRR` by the miekg/dns client
(external collaborator).  Each constructor carries exactly the payload the
program reads from it; string payloads that the program obtains by rendering
(`.String()` on addresses, DNSKEY and SOA) are carried pre-rendered. -/
inductive RR where
  | a (ttl : Nat) (addr : String)
  | aaaa (ttl : Nat) (addr : String)
  | caa (ttl : Nat) (tag : String) (value : String)
  | cname (ttl : Nat) (target : String)
  | dnskey (ttl : Nat) (repr : String)
  | mx (ttl : Nat) (preference : Nat) (mx : String)
  | ns (ttl : Nat) (ns : String)
  | ptr (ttl : Nat) (ptr : String)
  | soa (ttl : Nat) (repr : String)
  | srv (ttl : Nat) (priority weight port : Nat) (target : String)
  | svcb (ttl : Nat) (priority : Nat) (target : String)
  | txt (ttl : Nat) (txt : List String)
  | unsupported
deriving DecidableEq, Repr

/-- RecordFromRR converts a record returned by miekg/dns into a Record model;
nil (here `none`) if the record type is unsupported
(`app/models/record.go`, lines 33-105).  Unset Go struct fields are zero
values. -/
def RecordFromRR : RR → Option Record
  | .a ttl addr =>
      some { TTL := ttl, Priority := 0, Weight := 0, Port := 0, Tag := "",
             Content := [addr] }
  | .aaaa ttl addr =>
      some { TTL := ttl, Priority := 0, Weight := 0, Port := 0, Tag := "",
             Content := [addr] }
  | .caa ttl tag value =>
      some { TTL := ttl, Priority := 0, Weight := 0, Port := 0, Tag := tag,
             Content := [value] }
  | .cname ttl target =>
      some { TTL := ttl, Priority := 0, Weight := 0, Port := 0, Tag := "",
             Content := [target] }
  | .dnskey ttl repr =>
      some { TTL := ttl, Priority := 0, Weight := 0, Port := 0, Tag := "",
             Content := [repr] }
  | .mx ttl preference mx =>
      some { TTL := ttl, Priority := preference, Weight := 0, Port := 0,
             Tag := "", Content := [mx] }
  | .ns ttl ns =>
      some { TTL := ttl, Priority := 0, Weight := 0, Port := 0, Tag := "",
             Content := [ns] }
  | .ptr ttl ptr =>
      some { TTL := ttl, Priority := 0, Weight := 0, Port := 0, Tag := "",
             Content := [ptr] }
  | .soa ttl repr =>
      some { TTL := ttl, Priority := 0, Weight := 0, Port := 0, Tag := "",
             Content := [repr] }
  | .srv ttl priority weight port target =>
      some { TTL := ttl, Priority := priority, Weight := weight, Port := port,
             Tag := "", Content := [target] }
  | .svcb ttl priority target =>
      some { TTL := ttl, Priority := priority, Weight := 0, Port := 0,
             Tag := "", Content := [target] }
  | .txt ttl txt =>
      some { TTL := ttl, Priority := 0, Weight := 0, Port := 0, Tag := "",
             Content := txt }
  | .unsupported => none

/-! ## JSON values

Both backends persist the data model through Go's `encoding/json`.  We model
JSON values as a tree; `time.Time` and `uuid.UUID` leaves stand for their
injective stdlib string encodings (RFC3339Nano and canonical form), whose
round-trip is the stdlib marshaller's contract. -/

inductive Json where
  | null
  | bool (b : Bool)
  | num (n : Int)
  | str (s : String)
  | time (t : Time)
  | uuid (u : UUID)
  | arr (items : List Json)
  | obj (fields : List (String × Json))

/-- Look up the value of a JSON object field by name (first binding wins,
matching Go's decoder behaviour on the objects this program produces, which
never repeat a key). -/
def getField : List (String × Json) → String → Option Json
  | [], _ => none
  | (k, v) :: rest, key => if k = key then some v else getField rest key

/-- Set a field of a JSON object, replacing the first existing binding or
appending a new one.  This models RedisJSON `JSON.SET key $.field value` on an
existing document. -/
def objSet : List (String × Json) → String → Json → List (String × Json)
  | [], key, v => [(key, v)]
  | (k, v') :: rest, key, v =>
      if k = key then (key, v) :: rest else (k, v') :: objSet rest key v

/-- Go `encoding/json` decoding of a JSON array: decode each element,
failing if any element fails. -/
def decodeList {α : Type} (dec : Json → Option α) : List Json → Option (List α)
  | [] => some []
  | j :: rest =>
      match dec j, decodeList dec rest with
      | some x, some xs => some (x :: xs)
      | _, _ => none

/-- Go `encoding/json` decoding of a JSON string value. -/
def decodeString : Json → Option String
  | .str s => some s
  | _ => none

/-- Go `encoding/json` marshalling of `Record` per its struct tags: `ttl`,
then `priority`/`weight`/`port`/`tag` with `omitempty`, then `content`. -/
def encodeRecord (r : Record) : Json :=
  .obj ([("ttl", .num r.TTL)]
    ++ (if r.Priority = 0 then [] else [("priority", .num r.Priority)])
    ++ (if r.Weight = 0 then [] else [("weight", .num r.Weight)])
    ++ (if r.Port = 0 then [] else [("port", .num r.Port)])
    ++ (if r.Tag = "" then [] else [("tag", .str r.Tag)])
    ++ [("content", .arr (r.Content.map Json.str))])

/-- Go `encoding/json` unmarshalling into `Record`: absent `omitempty` fields
decode to the Go zero value. -/
def decodeRecord (j : Json) : Option Record :=
  match j with
  | .obj fs => do
    let ttl ← match getField fs "ttl" with
      | some (.num n) => some n
      | _ => none
    let priority ← match getField fs "priority" with
      | some (.num n) => some n
      | none => some 0
      | _ => none
    let weight ← match getField fs "weight" with
      | some (.num n) => some n
      | none => some 0
      | _ => none
    let port ← match getField fs "port" with
      | some (.num n) => some n
      | none => some 0
      | _ => none
    let tag ← match getField fs "tag" with
      | some (.str s) => some s
      | none => some ""
      | _ => none
    let content ← match getField fs "content" with
      | some (.arr items) => decodeList decodeString items
      | some .null => some []
      | _ => none
    some { TTL := ttl, Priority := priority, Weight := weight, Port := port,
           Tag := tag, Content := content }
  | _ => none

/-- Go `encoding/json` marshalling of `Lookup` per its struct tags:
`resolver`, `rtt`, `error` with `omitempty`, `records`, `resolvedAt`. -/
def encodeLookup (l : Lookup) : Json :=
  .obj ([("resolver", .str l.Resolver), ("rtt", .num l.RTT)]
    ++ (if l.Error = "" then [] else [("error", .str l.Error)])
    ++ [("records", .arr (l.Records.map encodeRecord)),
        ("resolvedAt", .time l.ResolvedAt)])

/-- Go `encoding/json` unmarshalling into `Lookup`. -/
def decodeLookup (j : Json) : Option Lookup :=
  match j with
  | .obj fs => do
    let resolver ← match getField fs "resolver" with
      | some (.str s) => some s
      | _ => none
    let rtt ← match getField fs "rtt" with
      | some (.num n) => some n
      | _ => none
    let err ← match getField fs "error" with
      | some (.str s) => some s
      | none => some ""
      | _ => none
    let records ← match getField fs "records" with
      | some (.arr items) => decodeList decodeRecord items
      | some .null => some []
      | _ => none
    let resolvedAt ← match getField fs "resolvedAt" with
      | some (.time t) => some t
      | _ => none
    some { Resolver := resolver, RTT := rtt, Error := err, Records := records,
           ResolvedAt := resolvedAt }
  | _ => none

/-- Go `encoding/json` marshalling of `Query` per its struct tags: `id`,
`type`, `name`, `lookups`, `createdAt`, `finishedAt` with `omitempty`. -/
def encodeQuery (q : Query) : Json :=
  .obj ([("id", .uuid q.ID), ("type", .str q.«Type»), ("name", .str q.Name),
         ("lookups", .arr (q.Lookups.map encodeLookup)),
         ("createdAt", .time q.CreatedAt)]
    ++ (match q.FinishedAt with
        | some t => [("finishedAt", .time t)]
        | none => []))

/-- Go `encoding/json` unmarshalling into `Query`. -/
def decodeQuery (j : Json) : Option Query :=
  match j with
  | .obj fs => do
    let id ← match getField fs "id" with
      | some (.uuid u) => some u
      | _ => none
    let ty ← match getField fs "type" with
      | some (.str s) => some s
      | _ => none
    let name ← match getField fs "name" with
      | some (.str s) => some s
      | _ => none
    let lookups ← match getField fs "lookups" with
      | some (.arr items) => decodeList decodeLookup items
      | some .null => some []
      | _ => none
    let createdAt ← match getField fs "createdAt" with
      | some (.time t) => some t
      | _ => none
    let finishedAt ← match getField fs "finishedAt" with
      | some (.time t) => some (some t)
      | none => some none
      | _ => none
    some { ID := id, «Type» := ty, Name := name, Lookups := lookups,
           CreatedAt := createdAt, FinishedAt := finishedAt }
  | _ => none

/-! ## Round-trip of the JSON encoding -/

/-- Mapping an encoder over a list and then decoding each element recovers the
list, provided decode inverts encode elementwise. -/
theorem decodeList_map {α : Type} (f : α → Json) (g : Json → Option α)
    (h : ∀ x, g (f x) = some x) (xs : List α) :
    decodeList g (xs.map f) = some xs := by
  induction xs with
  | nil => rfl
  | cons a as ih => simp [decodeList, h, ih]

theorem decode_encode_record (r : Record) :
    decodeRecord (encodeRecord r) = some r := by
  obtain ⟨ttl, pri, w, p, tag, content⟩ := r
  have hc : decodeList decodeString (content.map Json.str) = some content :=
    decodeList_map Json.str decodeString (fun _ => rfl) content
  by_cases h1 : pri = 0 <;> by_cases h2 : w = 0 <;> by_cases h3 : p = 0 <;>
    by_cases h4 : tag = "" <;>
      simp [encodeRecord, decodeRecord, getField, h1, h2, h3, h4, hc]

theorem decode_encode_lookup (l : Lookup) :
    decodeLookup (encodeLookup l) = some l := by
  obtain ⟨rsv, rtt, err, records, at_⟩ := l
  have hr : decodeList decodeRecord (records.map encodeRecord) = some records :=
    decodeList_map encodeRecord decodeRecord decode_encode_record records
  by_cases h1 : err = "" <;>
    simp [encodeLookup, decodeLookup, getField, h1, hr]

theorem decode_encode_query (q : Query) :
    decodeQuery (encodeQuery q) = some q := by
  obtain ⟨id, ty, name, lookups, created, finished⟩ := q
  have hl : decodeList decodeLookup (lookups.map encodeLookup) = some lookups :=
    decodeList_map encodeLookup decodeLookup decode_encode_lookup lookups
  cases finished <;> simp [encodeQuery, decodeQuery, getField, hl]

/-! ## File backend (`app/db/file/file.go`, given here as `src/unnamed/part_004`)

The backend stores one JSON document on disk.  File I/O is modelled by
holding the on-disk document as a `Json` value; `readJSON`/`writeJSON` are the
decode/encode steps.  The per-operation mutex serializes every operation's
read-mutate-write cycle, so each operation is a function from the on-disk
document to the new on-disk document. -/

/-- The layout of the local JSON file (`format` in the Go source). -/
structure format where
  Version : Int
  Queries : List Query
deriving DecidableEq, Repr

/-- getQuery iterates the Queries in format, returning the first that matches
the given ID, or nil (`none`) if it does not exist. -/
def format.getQuery (f : format) (id : UUID) : Option Query :=
  f.Queries.find? (fun q => q.ID == id)

/-- In-place mutation of the Query pointer returned by `format.getQuery`:
apply `fn` to the first Query matching `id`. -/
def format.mutQuery (f : format) (id : UUID) (fn : Query → Query) : format :=
  { f with Queries := go f.Queries }
where
  go : List Query → List Query
    | [] => []
    | q :: rest => if q.ID == id then fn q :: rest else q :: go rest

/-- Go `encoding/json` marshalling of `format`: `version`, `queries`. -/
def encodeFormat (f : format) : Json :=
  .obj [("version", .num f.Version), ("queries", .arr (f.Queries.map encodeQuery))]

/-- Go `encoding/json` unmarshalling into `format`. -/
def decodeFormat (j : Json) : Option format :=
  match j with
  | .obj fs => do
    let version ← match getField fs "version" with
      | some (.num n) => some n
      | none => some 0
      | _ => none
    let queries ← match getField fs "queries" with
      | some (.arr items) => decodeList decodeQuery items
      | some .null => some []
      | _ => none
    some { Version := version, Queries := queries }
  | _ => none

theorem decode_encode_format (f : format) :
    decodeFormat (encodeFormat f) = some f := by
  obtain ⟨v, qs⟩ := f
  have hq : decodeList decodeQuery (qs.map encodeQuery) = some qs :=
    decodeList_map encodeQuery decodeQuery decode_encode_query qs
  simp_all [encodeFormat, decodeFormat, getField]

namespace file

/-- readJSON opens and decodes the on-disk document
(`file.go` readJSON; decode failure is wrapped as `fmt.Errorf("json: %w")`). -/
def readJSON (disk : Json) : Except GoError format :=
  match decodeFormat disk with
  | some f => .ok f
  | none => .error (.wrapped "json" (.errMsg "decode failure"))

/-- DB.read takes the lock, loads the document and runs `fn` on it
(`file.go` DB.read). -/
def read (disk : Json) (fn : format → Except GoError Unit) :
    Except GoError Unit := do
  let f ← readJSON disk
  fn f

/-- DB.write takes the lock, loads the document, runs `fn` on it and writes
the mutated document back (`file.go` DB.write).  The resulting on-disk
document is returned. -/
def write (disk : Json) (fn : format → Except GoError format) :
    Except GoError Json := do
  let f ← readJSON disk
  let f' ← fn f
  pure (encodeFormat f')

/-- DB.CreateQuery (`file.go`, lines 76-89): assigns a fresh UUIDv7 ID and
the current time as CreatedAt to the passed Query (in place, through the
pointer), and appends it to the document.  `ms`/`rnd` feed the external
`uuid.NewV7` generator and `now` is `time.Now().UTC()`.  Returns the new
on-disk document and the mutated Query. -/
def CreateQuery (disk : Json) (ms : Nat) (rnd : List Nat) (now : Time)
    (query : Query) : Except GoError (Json × Query) := do
  let query := { query with ID := uuidNewV7 ms rnd, CreatedAt := now }
  match write disk (fun f => .ok { f with Queries := f.Queries ++ [query] }) with
  | .ok disk' => pure (disk', query)
  | .error e => .error (.wrapped "could not create query" e)

/-- DB.GetQueryByID (`file.go`, lines 91-105): returns the stored Query, or
`ErrQueryNotFound` (wrapped) if absent. -/
def GetQueryByID (disk : Json) (id : UUID) : Except GoError Query :=
  let res : Except GoError (Option Query) := do
    let f ← readJSON disk
    match f.getQuery id with
    | none => .error .queryNotFound
    | some q => pure (some q)
  match res with
  | .ok (some q) => .ok q
  | .ok none => .error (.wrapped "could not get query" .queryNotFound)
  | .error e => .error (.wrapped "could not get query" e)

/-- DB.UpdateQuery (`file.go`, lines 107-122): finds the stored Query by the
passed Query's ID and assigns its FinishedAt from the passed value;
`ErrQueryNotFound` (wrapped) if absent. -/
def UpdateQuery (disk : Json) (query : Query) : Except GoError Json :=
  match write disk (fun f =>
      match f.getQuery query.ID with
      | none => .error .queryNotFound
      | some _ => .ok (f.mutQuery query.ID
          (fun q => { q with FinishedAt := query.FinishedAt }))) with
  | .ok disk' => .ok disk'
  | .error e => .error (.wrapped "could not update query" e)

/-- DB.CreateLookup (`file.go`, lines 124-139): appends the Lookup to the
stored Query's Lookups; `ErrQueryNotFound` (wrapped) if absent. -/
def CreateLookup (disk : Json) (queryID : UUID) (l : Lookup) :
    Except GoError Json :=
  match write disk (fun f =>
      match f.getQuery queryID with
      | none => .error .queryNotFound
      | some _ => .ok (f.mutQuery queryID
          (fun q => { q with Lookups := q.Lookups ++ [l] }))) with
  | .ok disk' => .ok disk'
  | .error e => .error (.wrapped "could not create lookup" e)

end file

/-! ## Canonical UUID rendering (external gofrs/uuid `UUID.String`) -/

/-- Lower-case hexadecimal digit for a value below sixteen. -/
def hexChar (n : Nat) : Char :=
  if n < 10 then Char.ofNat (48 + n) else Char.ofNat (87 + n)

/-- Two-digit lower-case hexadecimal rendering of one byte. -/
def hexByte (b : Nat) : List Char :=
  [hexChar (b / 16), hexChar (b % 16)]

/-- Hexadecimal rendering of a byte sequence. -/
def hexBytes : List Nat → List Char
  | [] => []
  | b :: rest => hexByte b ++ hexBytes rest

/-- Modelled from the external gofrs/uuid library, `UUID.String`: canonical
8-4-4-4-12 form.  Malformed byte lists (not sixteen bytes) render empty. -/
def uuidToString (u : UUID) : String :=
  match u.bytes with
  | [b0, b1, b2, b3, b4, b5, b6, b7, b8, b9, b10, b11, b12, b13, b14, b15] =>
      String.mk (hexBytes [b0, b1, b2, b3] ++ ('-' :: (hexBytes [b4, b5]
        ++ ('-' :: (hexBytes [b6, b7] ++ ('-' :: (hexBytes [b8, b9]
        ++ ('-' :: hexBytes [b10, b11, b12, b13, b14, b15]))))))))
  | _ => ""

theorem hexChar_inj_aux : ∀ a < 16, ∀ b < 16, hexChar a = hexChar b → a = b := by
  decide

theorem hexChar_inj {a b : Nat} (ha : a < 16) (hb : b < 16)
    (h : hexChar a = hexChar b) : a = b :=
  hexChar_inj_aux a ha b hb h

theorem length_hexBytes (xs : List Nat) : (hexBytes xs).length = 2 * xs.length := by
  induction xs with
  | nil => rfl
  | cons b rest ih => simp [hexBytes, hexByte, ih]; ring

theorem hexBytes_inj : ∀ xs ys : List Nat, (∀ b ∈ xs, b < 256) →
    (∀ b ∈ ys, b < 256) → xs.length = ys.length → hexBytes xs = hexBytes ys →
    xs = ys := by
  intro xs
  induction xs with
  | nil =>
    intro ys _ _ hlen _
    exact (List.length_eq_zero.mp hlen.symm).symm
  | cons a as ih =>
    intro ys hxs hys hlen heq
    cases ys with
    | nil => simp at hlen
    | cons b bs =>
      simp only [hexBytes, hexByte, List.cons_append, List.nil_append,
        List.cons.injEq] at heq
      obtain ⟨h1, h2, h3⟩ := heq
      have ha : a < 256 := hxs a (by simp)
      have hb : b < 256 := hys b (by simp)
      have hd : a / 16 = b / 16 :=
        hexChar_inj (Nat.div_lt_of_lt_mul (by omega)) (Nat.div_lt_of_lt_mul (by omega)) h1
      have hm : a % 16 = b % 16 :=
        hexChar_inj (Nat.mod_lt _ (by omega)) (Nat.mod_lt _ (by omega)) h2
      have hab : a = b := by omega
      have htl : as = bs := by
        refine ih bs (fun x hx => hxs x (by simp [hx]))
          (fun x hx => hys x (by simp [hx])) (by simpa using hlen) h3
      simp [hab, htl]

/-- A list of length sixteen is a sixteen-element literal. -/
theorem list_len16 {α : Type} (l : List α) (h : l.length = 16) :
    ∃ b0 b1 b2 b3 b4 b5 b6 b7 b8 b9 b10 b11 b12 b13 b14 b15,
      l = [b0, b1, b2, b3, b4, b5, b6, b7, b8, b9, b10, b11, b12, b13, b14,
           b15] := by
  rcases l with _ | ⟨b0, l⟩; · simp at h
  rcases l with _ | ⟨b1, l⟩; · simp at h
  rcases l with _ | ⟨b2, l⟩; · simp at h
  rcases l with _ | ⟨b3, l⟩; · simp at h
  rcases l with _ | ⟨b4, l⟩; · simp at h
  rcases l with _ | ⟨b5, l⟩; · simp at h
  rcases l with _ | ⟨b6, l⟩; · simp at h
  rcases l with _ | ⟨b7, l⟩; · simp at h
  rcases l with _ | ⟨b8, l⟩; · simp at h
  rcases l with _ | ⟨b9, l⟩; · simp at h
  rcases l with _ | ⟨b10, l⟩; · simp at h
  rcases l with _ | ⟨b11, l⟩; · simp at h
  rcases l with _ | ⟨b12, l⟩; · simp at h
  rcases l with _ | ⟨b13, l⟩; · simp at h
  rcases l with _ | ⟨b14, l⟩; · simp at h
  rcases l with _ | ⟨b15, l⟩; · simp at h
  rcases l with _ | ⟨b16, l⟩
  · exact ⟨b0, b1, b2, b3, b4, b5, b6, b7, b8, b9, b10, b11, b12, b13, b14,
      b15, rfl⟩
  · simp at h

/-- Canonical rendering is injective on well-formed UUIDs. -/
theorem uuidToString_inj {u v : UUID} (hu : u.wf) (hv : v.wf)
    (h : uuidToString u = uuidToString v) : u = v := by
  obtain ⟨hlu, hbu⟩ := hu
  obtain ⟨hlv, hbv⟩ := hv
  obtain ⟨ub⟩ := u
  obtain ⟨vb⟩ := v
  obtain ⟨a0, a1, a2, a3, a4, a5, a6, a7, a8, a9, a10, a11, a12, a13, a14,
    a15, rfl⟩ := list_len16 ub hlu
  obtain ⟨c0, c1, c2, c3, c4, c5, c6, c7, c8, c9, c10, c11, c12, c13, c14,
    c15, rfl⟩ := list_len16 vb hlv
  simp only [List.mem_cons, List.not_mem_nil, or_false, forall_eq_or_imp,
    forall_eq] at hbu hbv
  obtain ⟨B0, B1, B2, B3, B4, B5, B6, B7, B8, B9, B10, B11, B12, B13, B14,
    B15⟩ := hbu
  obtain ⟨C0, C1, C2, C3, C4, C5, C6, C7, C8, C9, C10, C11, C12, C13, C14,
    C15⟩ := hbv
  simp only [uuidToString] at h
  injection h with h
  obtain ⟨s1, h⟩ := List.append_inj h (by simp [length_hexBytes])
  obtain ⟨-, h⟩ := List.cons.injEq _ _ _ _ |>.mp h
  obtain ⟨s2, h⟩ := List.append_inj h (by simp [length_hexBytes])
  obtain ⟨-, h⟩ := List.cons.injEq _ _ _ _ |>.mp h
  obtain ⟨s3, h⟩ := List.append_inj h (by simp [length_hexBytes])
  obtain ⟨-, h⟩ := List.cons.injEq _ _ _ _ |>.mp h
  obtain ⟨s4, h⟩ := List.append_inj h (by simp [length_hexBytes])
  obtain ⟨-, s5⟩ := List.cons.injEq _ _ _ _ |>.mp h
  have e1 := hexBytes_inj _ _
    (by intro b hb; simp only [List.mem_cons, List.not_mem_nil, or_false] at hb
        rcases hb with rfl | rfl | rfl | rfl <;> assumption)
    (by intro b hb; simp only [List.mem_cons, List.not_mem_nil, or_false] at hb
        rcases hb with rfl | rfl | rfl | rfl <;> assumption)
    (by simp) s1
  have e2 := hexBytes_inj _ _
    (by intro b hb; simp only [List.mem_cons, List.not_mem_nil, or_false] at hb
        rcases hb with rfl | rfl <;> assumption)
    (by intro b hb; simp only [List.mem_cons, List.not_mem_nil, or_false] at hb
        rcases hb with rfl | rfl <;> assumption)
    (by simp) s2
  have e3 := hexBytes_inj _ _
    (by intro b hb; simp only [List.mem_cons, List.not_mem_nil, or_false] at hb
        rcases hb with rfl | rfl <;> assumption)
    (by intro b hb; simp only [List.mem_cons, List.not_mem_nil, or_false] at hb
        rcases hb with rfl | rfl <;> assumption)
    (by simp) s3
  have e4 := hexBytes_inj _ _
    (by intro b hb; simp only [List.mem_cons, List.not_mem_nil, or_false] at hb
        rcases hb with rfl | rfl <;> assumption)
    (by intro b hb; simp only [List.mem_cons, List.not_mem_nil, or_false] at hb
        rcases hb with rfl | rfl <;> assumption)
    (by simp) s4
  have e5 := hexBytes_inj _ _
    (by intro b hb; simp only [List.mem_cons, List.not_mem_nil, or_false] at hb
        rcases hb with rfl | rfl | rfl | rfl | rfl | rfl <;> assumption)
    (by intro b hb; simp only [List.mem_cons, List.not_mem_nil, or_false] at hb
        rcases hb with rfl | rfl | rfl | rfl | rfl | rfl <;> assumption)
    (by simp) s5
  simp_all

/-- queryKey generates a stringified key for Redis
(`app/db/redis/redis.go`, lines 114-117). -/
def queryKey (id : UUID) : String :=
  "dennis:query:" ++ uuidToString id

theorem queryKey_inj {u v : UUID} (hu : u.wf) (hv : v.wf)
    (h : queryKey u = queryKey v) : u = v := by
  refine uuidToString_inj hu hv ?_
  have hd := congrArg String.data h
  simp only [queryKey, String.data_append] at hd
  exact String.ext (List.append_cancel_left hd)

/-! ## Redis backend (`app/db/redis/redis.go`)

The Redis JSON keyspace is modelled as an association list from keys to JSON
documents.  The three client commands the backend uses (`JSON.SET`,
`JSON.GET`, `JSON.ARRAPPEND`) are modelled from the RedisJSON contract:
`JSON.GET` on an absent key yields the `redis.Nil` sentinel; `JSON.SET` at
the root path `$` creates or replaces the document; `JSON.SET` and
`JSON.ARRAPPEND` at a sub-path of an absent key fail with a plain (non-Nil)
error. -/

/-- The Redis JSON keyspace: key to document. -/
def RedisStore : Type := List (String × Json)

/-- JSON.GET key `.` — the document, or the `redis.Nil` sentinel when the key
is absent. -/
def jsonGet (store : RedisStore) (key : String) : Except GoError Json :=
  match getField store key with
  | some doc => .ok doc
  | none => .error .redisNil

/-- JSON.SET key `$` value — create or replace the whole document. -/
def jsonSetRoot (store : RedisStore) (key : String) (v : Json) : RedisStore :=
  objSet store key v

/-- JSON.SET key `$.field` value — set a field of an existing document; a
plain error when the key does not exist (RedisJSON: new objects must be
created at the root). -/
def jsonSetField (store : RedisStore) (key field : String) (v : Json) :
    Except GoError RedisStore :=
  match getField store key with
  | some (.obj fs) => .ok (objSet store key (.obj (objSet fs field v)))
  | some _ => .error (.errMsg "ERR wrong static path")
  | none => .error (.errMsg "ERR new objects must be created at the root")

/-- JSON.ARRAPPEND key `$.field` value — append to an array field of an
existing document; a plain error when the key does not exist or the field is
not an array. -/
def jsonArrAppend (store : RedisStore) (key field : String) (v : Json) :
    Except GoError RedisStore :=
  match getField store key with
  | some (.obj fs) =>
      match getField fs field with
      | some (.arr xs) =>
          .ok (objSet store key (.obj (objSet fs field (.arr (xs ++ [v])))))
      | _ => .error (.errMsg "ERR wrong type")
  | some _ => .error (.errMsg "ERR wrong type")
  | none =>
      .error (.errMsg "ERR could not perform this operation on a key that does not exist")

namespace redis

/-- DB.CreateQuery (`redis.go`, lines 54-69): assigns a fresh UUIDv7 ID and
CreatedAt to the passed Query (through the pointer), marshals it and stores
it with `JSON.SET key $`.  Returns the new keyspace and the mutated Query. -/
def CreateQuery (store : RedisStore) (ms : Nat) (rnd : List Nat) (now : Time)
    (query : Query) : Except GoError (RedisStore × Query) :=
  let query := { query with ID := uuidNewV7 ms rnd, CreatedAt := now }
  .ok (jsonSetRoot store (queryKey query.ID) (encodeQuery query), query)

/-- DB.GetQueryByID (`redis.go`, lines 71-87): `JSON.GET`; the `redis.Nil`
sentinel becomes `db.ErrQueryNotFound`, other errors are wrapped, and the
document is unmarshalled into a Query. -/
def GetQueryByID (store : RedisStore) (id : UUID) : Except GoError Query :=
  match jsonGet store (queryKey id) with
  | .error e =>
      if errorsIs e .redisNil then .error .queryNotFound
      else .error (.wrapped "could not get JSON key" e)
  | .ok doc =>
      match decodeQuery doc with
      | some q => .ok q
      | none => .error (.wrapped "json" (.errMsg "decode failure"))

/-- DB.UpdateQuery (`redis.go`, lines 89-98): when the passed Query has a
non-nil FinishedAt, `JSON.SET key $.finishedAt` with its RFC3339Nano
rendering; errors are wrapped.  A nil FinishedAt is a no-op success. -/
def UpdateQuery (store : RedisStore) (query : Query) :
    Except GoError RedisStore :=
  match query.FinishedAt with
  | none => .ok store
  | some t =>
      match jsonSetField store (queryKey query.ID) "finishedAt" (.time t) with
      | .ok store' => .ok store'
      | .error e => .error (.wrapped "could not update JSON key" e)

/-- DB.CreateLookup (`redis.go`, lines 100-112): marshals the Lookup and
appends it with `JSON.ARRAPPEND key $.lookups`; errors are wrapped. -/
def CreateLookup (store : RedisStore) (queryID : UUID) (lookup : Lookup) :
    Except GoError RedisStore :=
  match jsonArrAppend store (queryKey queryID) "lookups" (encodeLookup lookup) with
  | .ok store' => .ok store'
  | .error e => .error (.wrapped "could not set JSON key" e)

end redis

/-! ## API v1 request validation (`api/v1`, source embedded in `src/README.md`) -/

/-- Error is returned when something goes wrong, either internally or with
the request given to DENNIS (`api/v1` types). -/
structure Error where
  Code : String
  Field : String
  Message : String
deriving DecidableEq, Repr

/-- ErrorCodeBadRequest is used when a request object contains invalid
values. -/
def ErrorCodeBadRequest : String := "BadRequest"

/-- ErrorCodeNotFound is used when a request references an object that does
not exist. -/
def ErrorCodeNotFound : String := "NotFound"

/-- ErrorCodeInternal is used when an unexpected server error occurs. -/
def ErrorCodeInternal : String := "Internal"

/-- CreateQueryRequest is the arguments given to API when requesting a new
set of lookups. -/
structure CreateQueryRequest where
  «Type» : String
  Name : String
deriving DecidableEq, Repr

/-- GetQueryRequest is the arguments given to API when requesting a Query by
its ID. -/
structure GetQueryRequest where
  ID : String
deriving DecidableEq, Repr

/-- CreateQueryResponse contains the Query created in response to
CreateQueryRequest. -/
structure CreateQueryResponse where
  Query : Query
deriving DecidableEq, Repr

/-- GetQueryResponse contains the Query requested by ID. -/
structure GetQueryResponse where
  Query : Query
deriving DecidableEq, Repr

/-- validRecordType returns true if DNS record type t is supported by DENNIS
(`api/v1` validation, embedded in `src/README.md` lines 249-259). -/
def validRecordType (t : String) : Bool :=
  match t with
  | "A" | "AAAA" | "CAA" | "CNAME" | "DNSKEY" | "MX" | "NS" | "PTR" | "SOA"
  | "SRV" | "SVCB" | "TXT" => true
  | _ => false

/-- Lower-case letter or digit, the character class `[a-z0-9]`. -/
def isLowerAlnum (c : Char) : Bool :=
  (decide (97 ≤ c.toNat) && decide (c.toNat ≤ 122))
    || (decide (48 ≤ c.toNat) && decide (c.toNat ≤ 57))

/-- The character class `[a-z0-9\-\.]` of the hostname regex. -/
def isHostChar (c : Char) : Bool :=
  isLowerAlnum c || c == '-' || c == '.'

/-- The TLD part of the hostname regex: `(xn--)?[a-z0-9]{1,18}`, matched
against the whole remaining suffix (the regex is anchored with `$`). -/
def matchesTLD (cs : List Char) : Bool :=
  (decide (1 ≤ cs.length) && decide (cs.length ≤ 18) && cs.all isLowerAlnum)
    || (match cs with
        | 'x' :: 'n' :: '-' :: '-' :: rest =>
            decide (1 ≤ rest.length) && decide (rest.length ≤ 18)
              && rest.all isLowerAlnum
        | _ => false)

/-- validRecordName returns true if the name matches the anchored hostname
regex of the `api/v1` validation (embedded in `src/README.md` lines 261-275):
`([a-z0-9\-\.]+)\.((xn--)?[a-z0-9]{1,18})` anchored at both ends.  A match
exists exactly when some position holds the dot separating a non-empty
host-character prefix from a TLD-shaped suffix. -/
def validRecordName (n : String) : Bool :=
  let cs := n.toList
  (List.range cs.length).any fun i =>
    cs.getD i ' ' == '.' && decide (1 ≤ i) && (cs.take i).all isHostChar
      && matchesTLD (cs.drop (i + 1))

/-- Validate asserts that all required fields of CreateQueryRequest are set
and valid (`api/v1` validation, embedded in `src/README.md` lines 196-221).
Go string length is byte length. -/
def CreateQueryRequest.Validate : Option CreateQueryRequest → Option Error
  | none =>
      some { Code := ErrorCodeBadRequest, Field := ".",
             Message := "Request body is required" }
  | some c =>
      if c.«Type» = "" then
        some { Code := ErrorCodeBadRequest, Field := ".type",
               Message := "Type of record is required" }
      else if c.Name = "" then
        some { Code := ErrorCodeBadRequest, Field := ".name",
               Message := "Name of domain is required" }
      else if ¬ validRecordType c.«Type» then
        some { Code := ErrorCodeBadRequest, Field := ".type",
               Message := "Record type is not supported" }
      else if c.Name.utf8ByteSize < 4 then
        some { Code := ErrorCodeBadRequest, Field := ".name",
               Message := "Name of domain must be at least 4 characters" }
      else if c.Name.utf8ByteSize > 253 then
        some { Code := ErrorCodeBadRequest, Field := ".name",
               Message := "Name of domain cannot be longest than 253 characters" }
      else if ¬ validRecordName c.Name then
        some { Code := ErrorCodeBadRequest, Field := ".name",
               Message := "Name of domain is invalid" }
      else
        none

/-- Validate asserts that the required field of GetQueryRequest is set
(`api/v1` validation, embedded in `src/README.md` lines 223-235). -/
def GetQueryRequest.Validate : Option GetQueryRequest → Option Error
  | none =>
      some { Code := ErrorCodeBadRequest, Field := ".",
             Message := "Request body is required" }
  | some g =>
      if g.ID = "" then
        some { Code := ErrorCodeBadRequest, Field := ".id",
               Message := "ID of Query is required" }
      else
        none

/-! ## UUID parsing (external gofrs/uuid `FromString`) -/

/-- Value of one hexadecimal digit, upper or lower case. -/
def hexVal (c : Char) : Option Nat :=
  if 48 ≤ c.toNat ∧ c.toNat ≤ 57 then some (c.toNat - 48)
  else if 97 ≤ c.toNat ∧ c.toNat ≤ 102 then some (c.toNat - 87)
  else if 65 ≤ c.toNat ∧ c.toNat ≤ 70 then some (c.toNat - 55)
  else none

/-- Parse an even-length run of hexadecimal digits into bytes. -/
def bytesFromHex : List Char → Option (List Nat)
  | [] => some []
  | c1 :: c2 :: rest =>
      match hexVal c1, hexVal c2, bytesFromHex rest with
      | some h, some l, some bs => some ((h * 16 + l) :: bs)
      | _, _, _ => none
  | _ => none

/-- The 32-character dash-less "hash-like" UUID form. -/
def fromHashLike (cs : List Char) : Option UUID :=
  match bytesFromHex cs with
  | some bs => some ⟨bs⟩
  | none => none

/-- The canonical 36-character `8-4-4-4-12` UUID form. -/
def fromCanonical (cs : List Char) : Option UUID :=
  if cs.getD 8 ' ' == '-' && cs.getD 13 ' ' == '-' && cs.getD 18 ' ' == '-'
      && cs.getD 23 ' ' == '-' then
    fromHashLike (cs.take 8 ++ ((cs.drop 9).take 4 ++ ((cs.drop 14).take 4
      ++ ((cs.drop 19).take 4 ++ (cs.drop 24).take 12))))
  else
    none

/-- Modelled from the external gofrs/uuid library, `FromString` /
`UnmarshalText`: accepts the canonical form, the braced canonical and
hash-like forms, the `urn:uuid:` forms, and the bare 32-character hash-like
form; anything else fails. -/
def uuidFromString (s : String) : Option UUID :=
  let cs := s.toList
  if cs.length = 36 then fromCanonical cs
  else if cs.length = 38 ∧ cs.getD 0 ' ' = '{' ∧ cs.getD 37 ' ' = '}' then
    fromCanonical ((cs.drop 1).take 36)
  else if cs.length = 34 ∧ cs.getD 0 ' ' = '{' ∧ cs.getD 33 ' ' = '}' then
    fromHashLike ((cs.drop 1).take 32)
  else if cs.length = 45 ∧ cs.take 9 = "urn:uuid:".toList then
    fromCanonical (cs.drop 9)
  else if cs.length = 41 ∧ cs.take 9 = "urn:uuid:".toList then
    fromHashLike (cs.drop 9)
  else if cs.length = 32 then fromHashLike cs
  else none

/-! ## DNS client surface (external miekg/dns, contract only) -/

/-- A DNS response message as the program reads it: response code and answer
records. -/
structure Msg where
  Rcode : Nat
  Answer : List RR
deriving Repr

/-- Modelled from the external miekg/dns `RcodeToString` map; indexing a Go
map with an absent key yields the zero value, the empty string. -/
def RcodeToString (rcode : Nat) : String :=
  match rcode with
  | 0 => "NOERROR"
  | 1 => "FORMERR"
  | 2 => "SERVFAIL"
  | 3 => "NXDOMAIN"
  | 4 => "NOTIMP"
  | 5 => "REFUSED"
  | 6 => "YXDOMAIN"
  | 7 => "YXRRSET"
  | 8 => "NXRRSET"
  | 9 => "NOTAUTH"
  | 10 => "NOTZONE"
  | _ => ""

/-! ## Server orchestration (`app/server.go`) -/

/-- Errors returned by Server methods: either an `api/v1` Error value or a
database error passed through unchanged. -/
inductive ServerErr where
  | api (e : Error)
  | db (e : GoError)
deriving DecidableEq, Repr

/-- The database capability interface (`app/db`, `DB` in `app/ui.go`):
CreateQuery, GetQueryByID, UpdateQuery, CreateLookup.  The state type is the
backend's store; `ms`/`rnd`/`now` thread the generator and clock
nondeterminism of CreateQuery. -/
structure DB (σ : Type) where
  CreateQuery : σ → Nat → List Nat → Time → Query → Except GoError (σ × Query)
  GetQueryByID : σ → UUID → Except GoError Query
  UpdateQuery : σ → Query → Except GoError σ
  CreateLookup : σ → UUID → Lookup → Except GoError σ

/-- The file backend as an implementation of the DB interface. -/
def fileDB : DB Json :=
  ⟨file.CreateQuery, file.GetQueryByID, file.UpdateQuery, file.CreateLookup⟩

/-- The Redis backend as an implementation of the DB interface. -/
def redisDB : DB RedisStore :=
  ⟨redis.CreateQuery, redis.GetQueryByID, redis.UpdateQuery, redis.CreateLookup⟩

/-- Server.CreateQuery (`app/server.go`, lines 143-170): validate the
request, build a Query with empty (non-nil) Lookups and zero-valued
ID/CreatedAt, persist it through the database (which assigns ID and
CreatedAt), and return it.  The detached resolution tasks are launched
afterwards and do not affect this return value. -/
def Server.CreateQuery {σ : Type} (db : DB σ) (st : σ) (ms : Nat)
    (rnd : List Nat) (now : Time) (req : CreateQueryRequest) :
    Except ServerErr (σ × CreateQueryResponse) :=
  match CreateQueryRequest.Validate (some req) with
  | some e => .error (.api e)
  | none =>
      let query : Query :=
        { ID := uuidNil, «Type» := req.«Type», Name := req.Name,
          Lookups := [], CreatedAt := ⟨0⟩, FinishedAt := none }
      match db.CreateQuery st ms rnd now query with
      | .error e => .error (.db e)
      | .ok (st', query') => .ok (st', { Query := query' })

/-- Server.GetQuery (`app/server.go`, lines 172-195): validate, parse the ID
as a UUID (BadRequest on failure, before any storage read), read from the
database, and translate `db.ErrQueryNotFound` into the NotFound API error. -/
def Server.GetQuery {σ : Type} (db : DB σ) (st : σ) (req : GetQueryRequest) :
    Except ServerErr GetQueryResponse :=
  match GetQueryRequest.Validate (some req) with
  | some e => .error (.api e)
  | none =>
      match uuidFromString req.ID with
      | none =>
          .error (.api { Code := ErrorCodeBadRequest, Field := ".id",
                         Message := "Invalid UUID for Query ID" })
      | some id =>
          match db.GetQueryByID st id with
          | .error e =>
              if errorsIs e .queryNotFound then
                .error (.api { Code := ErrorCodeNotFound, Field := "",
                               Message := "Query not found by ID" })
              else
                .error (.db e)
          | .ok q => .ok { Query := q }

/-- Server.resolve, lookup construction (`app/server.go`, lines 104-135):
`outcome` is the result of `client.Exchange` — a transport error, or a
response message with the round-trip time in nanoseconds.  On a transport
error the task logs and returns without building a Lookup (`none`).
Otherwise it builds a Lookup with the resolver name, the RTT in milliseconds
and the completion time; a non-success response code stores only the rcode
string in Error, a success stores the normalized supported records.  (The
source's `errors.Is(err, context.Canceled)` arm is unreachable here: `err`
is already known to be nil.) -/
def Server.resolveLookup (rsvName : String)
    (outcome : Except GoError (Msg × Nat)) (now : Time) : Option Lookup :=
  match outcome with
  | .error _ => none
  | .ok (res, rtt) =>
      let l : Lookup :=
        { Resolver := rsvName, RTT := (rtt / 1000000 : Nat), Error := "",
          Records := [], ResolvedAt := now }
      if res.Rcode ≠ 0 then
        some { l with Error := RcodeToString res.Rcode }
      else
        some { l with Records := res.Answer.filterMap RecordFromRR }

/-- Server.resolve, effect on the store (`app/server.go`, lines 104-141):
when a Lookup was built it is appended via CreateLookup; a CreateLookup
failure is logged and otherwise ignored.  The task never propagates an
error. -/
def Server.resolve {σ : Type} (db : DB σ) (st : σ) (queryID : UUID)
    (rsvName : String) (outcome : Except GoError (Msg × Nat)) (now : Time) :
    σ :=
  match Server.resolveLookup rsvName outcome now with
  | none => st
  | some l =>
      match db.CreateLookup st queryID l with
      | .ok st' => st'
      | .error _ => st

/-! ## Configuration validation (`app/config/validation.go`) -/

/-- ValidationError is returned by configuration validation functions
(`app/config/validation.go`, lines 10-17). -/
structure ValidationError where
  Field : String
  Message : String
deriving DecidableEq, Repr

/-- Go `path/filepath.IsAbs` on Unix: the path begins with a slash
(external stdlib). -/
def filepathIsAbs (p : String) : Bool :=
  match p.toList with
  | '/' :: _ => true
  | _ => false

/-- FileDB is the configuration of the file database backend
(`app/config/config.go`). -/
structure FileDB where
  Path : String
deriving DecidableEq, Repr

/-- FileDB.validate (`app/config/validation.go`, lines 122-132): the path is
required and must not be absolute. -/
def FileDB.validate (f : FileDB) : Option ValidationError :=
  if f.Path = "" then
    some { Field := "path", Message := "path to local file is required" }
  else if filepathIsAbs f.Path then
    some { Field := "path", Message := "path is not an absolute path" }
  else
    none

/-! ## Observation helpers and backend lemmas -/

/-- The Query stored under `id` on the file backend's disk, as an external
observer reads it: decode the document and find the first match. -/
def file.storedQuery (disk : Json) (id : UUID) : Option Query :=
  match decodeFormat disk with
  | some f => f.getQuery id
  | none => none

/-- The Query stored under `id` in the Redis keyspace, as an external
observer reads it: fetch and unmarshal the document at its key. -/
def redis.storedQuery (store : RedisStore) (id : UUID) : Option Query :=
  match getField store (queryKey id) with
  | some doc => decodeQuery doc
  | none => none

theorem getQuery_found_id (qs : List Query) (id : UUID) (q : Query)
    (h : qs.find? (fun x => x.ID == id) = some q) : q.ID = id := by
  have := List.find?_some h
  simpa using this

/-- Mutating the first Query matching `id` with an ID-preserving function is
visible to a subsequent lookup of `id` as exactly that function. -/
theorem getQuery_mutQuery_self (f : format) (id : UUID) (fn : Query → Query)
    (q : Query) (hq : f.getQuery id = some q) (hid : (fn q).ID = q.ID) :
    (f.mutQuery id fn).getQuery id = some (fn q) := by
  obtain ⟨v, qs⟩ := f
  simp only [format.getQuery, format.mutQuery] at hq ⊢
  induction qs with
  | nil => simp [List.find?] at hq
  | cons a as ih =>
    by_cases h : (a.ID == id) = true
    · simp only [List.find?, h] at hq
      have haq : a = q := by simpa using hq
      have hq' : ((fn a).ID == id) = true := by
        have h2 : q.ID = id := by
          rw [haq] at h
          simpa using h
        simp [haq, hid, h2]
      simp only [format.mutQuery.go, if_pos h, List.find?, hq']
      rw [haq]
    · have h' : (a.ID == id) = false := by simpa using h
      simp only [List.find?, h'] at hq
      simp only [format.mutQuery.go, if_neg h, List.find?, h']
      exact ih hq

/-- Mutating the first Query matching `id` with an ID-preserving function
leaves lookups of any other ID unchanged. -/
theorem getQuery_mutQuery_ne (f : format) (id id' : UUID) (fn : Query → Query)
    (hid : ∀ q, (fn q).ID = q.ID) (hne : id' ≠ id) :
    (f.mutQuery id fn).getQuery id' = f.getQuery id' := by
  obtain ⟨v, qs⟩ := f
  simp only [format.getQuery, format.mutQuery]
  induction qs with
  | nil => simp [format.mutQuery.go]
  | cons a as ih =>
    by_cases h : (a.ID == id) = true
    · simp only [format.mutQuery.go, if_pos h]
      have ha : a.ID = id := by simpa using h
      have h1 : ((fn a).ID == id') = false := by
        simp [hid, ha, Ne.symm hne]
      have h2 : (a.ID == id') = false := by
        simp [ha, Ne.symm hne]
      simp only [List.find?, h1, h2]
    · simp only [format.mutQuery.go, if_neg h]
      cases h3 : (a.ID == id') with
      | true => simp only [List.find?, h3]
      | false =>
        simp only [List.find?, h3]
        exact ih

/-- Appending a Query at the end of the document does not change the result
of looking up an ID that is already present. -/
theorem getQuery_append_of_found (f : format) (id : UUID) (q newq : Query)
    (hq : f.getQuery id = some q) :
    ({ f with Queries := f.Queries ++ [newq] } : format).getQuery id
      = some q := by
  obtain ⟨v, qs⟩ := f
  simp only [format.getQuery] at hq ⊢
  rw [List.find?_append, hq]
  rfl

/-- Looking up a fresh ID after appending a Query carrying it finds the
appended Query. -/
theorem getQuery_append_fresh (f : format) (newq : Query)
    (hfresh : f.getQuery newq.ID = none) :
    ({ f with Queries := f.Queries ++ [newq] } : format).getQuery newq.ID
      = some newq := by
  obtain ⟨v, qs⟩ := f
  simp only [format.getQuery] at hfresh ⊢
  rw [List.find?_append, hfresh]
  simp [List.find?]

@[simp]
theorem except_pure_eq {ε α : Type} (a : α) :
    (pure a : Except ε α) = .ok a := rfl

@[simp]
theorem except_bind_ok {ε α β : Type} (a : α) (f : α → Except ε β) :
    (Except.ok a >>= f : Except ε β) = f a := rfl

@[simp]
theorem except_bind_error {ε α β : Type} (e : ε) (f : α → Except ε β) :
    (Except.error e >>= f : Except ε β) = .error e := rfl

@[simp]
theorem except_map_ok {ε α β : Type} (g : α → β) (a : α) :
    (g <$> (Except.ok a : Except ε α) : Except ε β) = .ok (g a) := rfl

@[simp]
theorem except_map_error {ε α β : Type} (g : α → β) (e : ε) :
    (g <$> (Except.error e : Except ε α) : Except ε β) = .error e := rfl

theorem storedQuery_encodeFormat (f : format) (id : UUID) :
    file.storedQuery (encodeFormat f) id = f.getQuery id := by
  simp [file.storedQuery, decode_encode_format]

theorem file_UpdateQuery_eq (disk : Json) (f : format) (q qold : Query)
    (hd : decodeFormat disk = some f) (hq : f.getQuery q.ID = some qold) :
    file.UpdateQuery disk q =
      .ok (encodeFormat (f.mutQuery q.ID
        (fun x => { x with FinishedAt := q.FinishedAt }))) := by
  simp [file.UpdateQuery, file.write, file.readJSON, hd, hq]

theorem file_UpdateQuery_notFound (disk : Json) (f : format) (q : Query)
    (hd : decodeFormat disk = some f) (hq : f.getQuery q.ID = none) :
    file.UpdateQuery disk q =
      .error (.wrapped "could not update query" .queryNotFound) := by
  simp [file.UpdateQuery, file.write, file.readJSON, hd, hq]

theorem file_CreateLookup_eq (disk : Json) (f : format) (id : UUID)
    (l : Lookup) (qold : Query) (hd : decodeFormat disk = some f)
    (hq : f.getQuery id = some qold) :
    file.CreateLookup disk id l =
      .ok (encodeFormat (f.mutQuery id
        (fun x => { x with Lookups := x.Lookups ++ [l] }))) := by
  simp [file.CreateLookup, file.write, file.readJSON, hd, hq]

theorem file_CreateLookup_notFound (disk : Json) (f : format) (id : UUID)
    (l : Lookup) (hd : decodeFormat disk = some f)
    (hq : f.getQuery id = none) :
    file.CreateLookup disk id l =
      .error (.wrapped "could not create lookup" .queryNotFound) := by
  simp [file.CreateLookup, file.write, file.readJSON, hd, hq]

theorem file_CreateQuery_eq (disk : Json) (f : format) (ms : Nat)
    (rnd : List Nat) (now : Time) (q : Query)
    (hd : decodeFormat disk = some f) :
    file.CreateQuery disk ms rnd now q =
      .ok (encodeFormat { f with Queries := f.Queries
             ++ [{ q with ID := uuidNewV7 ms rnd, CreatedAt := now }] },
           { q with ID := uuidNewV7 ms rnd, CreatedAt := now }) := by
  simp [file.CreateQuery, file.write, file.readJSON, hd]

theorem file_GetQueryByID_found (disk : Json) (f : format) (id : UUID)
    (q : Query) (hd : decodeFormat disk = some f)
    (hq : f.getQuery id = some q) :
    file.GetQueryByID disk id = .ok q := by
  simp [file.GetQueryByID, file.readJSON, hd, hq]

theorem file_GetQueryByID_notFound (disk : Json) (f : format) (id : UUID)
    (hd : decodeFormat disk = some f) (hq : f.getQuery id = none) :
    file.GetQueryByID disk id =
      .error (.wrapped "could not get query" .queryNotFound) := by
  simp [file.GetQueryByID, file.readJSON, hd, hq]

theorem getField_objSet_self (fs : List (String × Json)) (k : String)
    (v : Json) : getField (objSet fs k v) k = some v := by
  induction fs with
  | nil => simp [objSet, getField]
  | cons p rest ih =>
    obtain ⟨k', v'⟩ := p
    by_cases h : k' = k
    · simp [objSet, getField, h]
    · simp [objSet, getField, h, ih]

theorem getField_objSet_ne (fs : List (String × Json)) (k k' : String)
    (v : Json) (h : k' ≠ k) :
    getField (objSet fs k v) k' = getField fs k' := by
  induction fs with
  | nil => simp [objSet, getField, Ne.symm h]
  | cons p rest ih =>
    obtain ⟨k0, v0⟩ := p
    by_cases h0 : k0 = k
    · subst h0
      simp [objSet, getField, Ne.symm h]
    · simp only [objSet, if_neg h0]
      by_cases h1 : k0 = k'
      · simp [getField, h1]
      · simp [getField, h1, ih]

theorem jsonSetField_finishedAt (store : RedisStore) (key : String)
    (q : Query) (t : Time)
    (h : getField store key = some (encodeQuery q)) :
    jsonSetField store key "finishedAt" (.time t) =
      .ok (objSet store key (encodeQuery { q with FinishedAt := some t })) := by
  cases hf : q.FinishedAt <;>
    simp [jsonSetField, h, encodeQuery, hf, objSet]

theorem jsonArrAppend_lookups (store : RedisStore) (key : String) (q : Query)
    (l : Lookup) (h : getField store key = some (encodeQuery q)) :
    jsonArrAppend store key "lookups" (encodeLookup l) =
      .ok (objSet store key
        (encodeQuery { q with Lookups := q.Lookups ++ [l] })) := by
  simp [jsonArrAppend, h, encodeQuery, getField, objSet]

theorem redis_UpdateQuery_eq (store : RedisStore) (q qold : Query) (t : Time)
    (hfin : q.FinishedAt = some t)
    (h : getField store (queryKey q.ID) = some (encodeQuery qold)) :
    redis.UpdateQuery store q =
      .ok (objSet store (queryKey q.ID)
        (encodeQuery { qold with FinishedAt := some t })) := by
  simp [redis.UpdateQuery, hfin, jsonSetField_finishedAt _ _ _ t h]

theorem redis_CreateLookup_eq (store : RedisStore) (id : UUID) (l : Lookup)
    (qold : Query)
    (h : getField store (queryKey id) = some (encodeQuery qold)) :
    redis.CreateLookup store id l =
      .ok (objSet store (queryKey id)
        (encodeQuery { qold with Lookups := qold.Lookups ++ [l] })) := by
  simp [redis.CreateLookup, jsonArrAppend_lookups _ _ _ l h]

theorem redis_storedQuery_objSet_self (store : RedisStore) (id : UUID)
    (q : Query) :
    redis.storedQuery (objSet store (queryKey id) (encodeQuery q)) id
      = some q := by
  simp [redis.storedQuery, getField_objSet_self, decode_encode_query]

/-! ## Claims -/

/-- C3 counterexample: the claim says that for every supported type other
than MX and SRV — SVCB included — only TTL and Content are populated.  But
`RecordFromRR` on an SVCB record also populates Priority (from the SVCB
SvcPriority field): on an SVCB record with priority 1 the produced Record
has Priority 1, not 0. -/
theorem dennis_c3_counterexample :
    RecordFromRR (.svcb 300 1 "example.com.") =
      some { TTL := 300, Priority := 1, Weight := 0, Port := 0, Tag := "",
             Content := ["example.com."] } ∧
    (RecordFromRR (.svcb 300 1 "example.com.")).map Record.Priority
      ≠ some 0 := by
  exact ⟨rfl, by decide⟩

/-- C3 (amended): for every supported DNS resource record passed to
RecordFromRR, the produced Record populates Priority only for MX, SRV and
SVCB, Weight and Port only for SRV, Tag only for CAA, and for every other
supported type (A, AAAA, CNAME, DNSKEY, NS, PTR, SOA, TXT) only TTL and
Content are populated; unsupported records produce nil. -/
theorem dennis_c3 :
    (∀ ttl addr, RecordFromRR (.a ttl addr) =
      some { TTL := (ttl : Int), Priority := 0, Weight := 0, Port := 0,
             Tag := "", Content := [addr] }) ∧
    (∀ ttl addr, RecordFromRR (.aaaa ttl addr) =
      some { TTL := (ttl : Int), Priority := 0, Weight := 0, Port := 0,
             Tag := "", Content := [addr] }) ∧
    (∀ ttl tag value, RecordFromRR (.caa ttl tag value) =
      some { TTL := (ttl : Int), Priority := 0, Weight := 0, Port := 0,
             Tag := tag, Content := [value] }) ∧
    (∀ ttl target, RecordFromRR (.cname ttl target) =
      some { TTL := (ttl : Int), Priority := 0, Weight := 0, Port := 0,
             Tag := "", Content := [target] }) ∧
    (∀ ttl repr, RecordFromRR (.dnskey ttl repr) =
      some { TTL := (ttl : Int), Priority := 0, Weight := 0, Port := 0,
             Tag := "", Content := [repr] }) ∧
    (∀ ttl pref mx, RecordFromRR (.mx ttl pref mx) =
      some { TTL := (ttl : Int), Priority := (pref : Int), Weight := 0,
             Port := 0, Tag := "", Content := [mx] }) ∧
    (∀ ttl ns, RecordFromRR (.ns ttl ns) =
      some { TTL := (ttl : Int), Priority := 0, Weight := 0, Port := 0,
             Tag := "", Content := [ns] }) ∧
    (∀ ttl ptr, RecordFromRR (.ptr ttl ptr) =
      some { TTL := (ttl : Int), Priority := 0, Weight := 0, Port := 0,
             Tag := "", Content := [ptr] }) ∧
    (∀ ttl repr, RecordFromRR (.soa ttl repr) =
      some { TTL := (ttl : Int), Priority := 0, Weight := 0, Port := 0,
             Tag := "", Content := [repr] }) ∧
    (∀ ttl pri w p target, RecordFromRR (.srv ttl pri w p target) =
      some { TTL := (ttl : Int), Priority := (pri : Int), Weight := (w : Int),
             Port := (p : Int), Tag := "", Content := [target] }) ∧
    (∀ ttl pri target, RecordFromRR (.svcb ttl pri target) =
      some { TTL := (ttl : Int), Priority := (pri : Int), Weight := 0,
             Port := 0, Tag := "", Content := [target] }) ∧
    (∀ ttl txt, RecordFromRR (.txt ttl txt) =
      some { TTL := (ttl : Int), Priority := 0, Weight := 0, Port := 0,
             Tag := "", Content := txt }) ∧
    RecordFromRR .unsupported = none := by
  refine ⟨?_, ?_, ?_, ?_, ?_, ?_, ?_, ?_, ?_, ?_, ?_, ?_, rfl⟩ <;>
    intros <;> rfl

/-- C9: the file backend configuration validator rejects, with a
ValidationError on field `path`, exactly the configurations whose Path is
empty or absolute; non-empty relative paths pass. -/
theorem dennis_c9 (f : FileDB) :
    (FileDB.validate f = none ↔
      (f.Path ≠ "" ∧ filepathIsAbs f.Path = false)) ∧
    (∀ e, FileDB.validate f = some e → e.Field = "path") := by
  unfold FileDB.validate
  constructor
  · split_ifs <;> simp_all
  · intro e
    split_ifs <;> intro h <;> simp_all <;> exact (h ▸ rfl : e.Field = "path").symm ▸ rfl

/-- C9 witness: the validator accepts the relative path `data/dennis.json`,
and its rejection of the absolute path `/var/dennis.json` carries field
`path`. -/
theorem dennis_c9_witness :
    FileDB.validate { Path := "data/dennis.json" } = none ∧
    ({ Field := "path", Message := "path is not an absolute path" }
      : ValidationError).Field = "path" :=
  ⟨(dennis_c9 { Path := "data/dennis.json" }).1.mpr (by decide),
   (dennis_c9 { Path := "/var/dennis.json" }).2
     { Field := "path", Message := "path is not an absolute path" }
     (by decide)⟩

/-- C10: a GetQuery request whose ID is non-empty but not a parseable UUID is
answered with the BadRequest API error (never NotFound), and the answer is
independent of the store — no storage read takes place (the database is
consulted only after a successful parse). -/
theorem dennis_c10 {σ : Type} (db : DB σ) (st st' : σ)
    (req : GetQueryRequest) (hne : req.ID ≠ "")
    (hparse : uuidFromString req.ID = none) :
    Server.GetQuery db st req =
      .error (.api { Code := ErrorCodeBadRequest, Field := ".id",
                     Message := "Invalid UUID for Query ID" }) ∧
    Server.GetQuery db st req = Server.GetQuery db st' req := by
  constructor <;>
    simp [Server.GetQuery, GetQueryRequest.Validate, hne, hparse]

/-- C10 witness: concrete malformed ID against the file backend. -/
theorem dennis_c10_witness :
    Server.GetQuery fileDB Json.null { ID := "not-a-uuid" } =
      .error (.api { Code := ErrorCodeBadRequest, Field := ".id",
                     Message := "Invalid UUID for Query ID" }) :=
  (dennis_c10 fileDB Json.null (Json.bool true) { ID := "not-a-uuid" }
    (by decide) (by decide)).1

/-- Concrete UUID used by witnesses. -/
def uuidW : UUID := ⟨[0, 1, 2, 3, 4, 5, 6, 7, 8, 9, 10, 11, 12, 13, 14, 15]⟩

/-- Concrete stored Query used by witnesses. -/
def qW : Query :=
  { ID := uuidW, «Type» := "A", Name := "example.com", Lookups := [],
    CreatedAt := ⟨1⟩, FinishedAt := none }

/-- Concrete single-query document used by witnesses. -/
def fmtW : format := { Version := 1, Queries := [qW] }

/-- C2: for a resolution task, a successful exchange with a non-success
response code produces a Lookup carrying the rcode string in Error and no
Records, and that Lookup is appended to the stored Query; a transport-level
exchange failure produces no Lookup and leaves the store untouched.  The
task itself has no error channel (`Server.resolve` is total into the store
state), so neither case can fail the enclosing CreateQuery, which has
already returned. -/
theorem dennis_c2 {σ : Type} (db : DB σ) (st : σ) (queryID : UUID)
    (rsvName : String) (now : Time) (e : GoError) (res : Msg) (rtt : Nat)
    (disk : Json) (f : format) (qold : Query)
    (hrc : res.Rcode ≠ 0) (hd : decodeFormat disk = some f)
    (hq : f.getQuery queryID = some qold) :
    Server.resolve db st queryID rsvName (.error e) now = st ∧
    Server.resolveLookup rsvName (.error e) now = none ∧
    Server.resolveLookup rsvName (.ok (res, rtt)) now =
      some { Resolver := rsvName, RTT := ((rtt / 1000000 : Nat) : Int),
             Error := RcodeToString res.Rcode, Records := [],
             ResolvedAt := now } ∧
    file.storedQuery
        (Server.resolve fileDB disk queryID rsvName (.ok (res, rtt)) now)
        queryID =
      some { qold with Lookups := qold.Lookups ++
        [{ Resolver := rsvName, RTT := ((rtt / 1000000 : Nat) : Int),
           Error := RcodeToString res.Rcode, Records := [],
           ResolvedAt := now }] } := by
  have hlk : Server.resolveLookup rsvName (.ok (res, rtt)) now =
      some { Resolver := rsvName, RTT := ((rtt / 1000000 : Nat) : Int),
             Error := RcodeToString res.Rcode, Records := [],
             ResolvedAt := now } := by
    simp [Server.resolveLookup, hrc]
  refine ⟨rfl, rfl, hlk, ?_⟩
  have hcl := file_CreateLookup_eq disk f queryID
    { Resolver := rsvName, RTT := ((rtt / 1000000 : Nat) : Int),
      Error := RcodeToString res.Rcode, Records := [], ResolvedAt := now }
    qold hd hq
  simp only [Server.resolve, hlk]
  rw [show fileDB.CreateLookup = file.CreateLookup from rfl, hcl]
  rw [storedQuery_encodeFormat]
  exact getQuery_mutQuery_self f queryID _ qold hq rfl

/-- C2 witness: a timed-out resolver leaves the store untouched; a SERVFAIL
(rcode 2) answer appends a Lookup with Error `SERVFAIL` and no Records. -/
theorem dennis_c2_witness :
    Server.resolve fileDB (encodeFormat fmtW) uuidW "one"
        (.error (.errMsg "timeout")) ⟨5⟩ = encodeFormat fmtW ∧
    file.storedQuery
        (Server.resolve fileDB (encodeFormat fmtW) uuidW "one"
          (.ok (⟨2, []⟩, 5000000)) ⟨5⟩) uuidW =
      some { qW with Lookups := qW.Lookups ++
        [{ Resolver := "one", RTT := 5, Error := "SERVFAIL", Records := [],
           ResolvedAt := ⟨5⟩ }] } := by
  have h := dennis_c2 fileDB (encodeFormat fmtW) uuidW "one" ⟨5⟩
    (.errMsg "timeout") ⟨2, []⟩ 5000000 (encodeFormat fmtW) fmtW qW
    (by decide) (by decide) (by decide)
  exact ⟨h.1, h.2.2.2⟩

/-- C7: CreateQueryRequest validation rejects, always with the BadRequest
error code (never NotFound or Internal), and the rejection surfaces from
Server.CreateQuery as that same error with no storage interaction (no new
store state is produced); it accepts exactly the requests whose record type
is in the supported set and whose name has byte length in [4,253] and
matches the structural hostname pattern. -/
theorem dennis_c7 {σ : Type} (db : DB σ) (st : σ) (ms : Nat)
    (rnd : List Nat) (now : Time) (req : CreateQueryRequest) (e : Error)
    (he : CreateQueryRequest.Validate (some req) = some e) :
    e.Code = ErrorCodeBadRequest ∧
    Server.CreateQuery db st ms rnd now req = .error (.api e) ∧
    (∀ req' : CreateQueryRequest,
      CreateQueryRequest.Validate (some req') = none ↔
        (validRecordType req'.«Type» = true ∧
         4 ≤ req'.Name.utf8ByteSize ∧ req'.Name.utf8ByteSize ≤ 253 ∧
         validRecordName req'.Name = true)) := by
  refine ⟨?_, ?_, ?_⟩
  · simp only [CreateQueryRequest.Validate] at he
    split_ifs at he <;> injection he with he <;> subst he <;> rfl
  · simp [Server.CreateQuery, he]
  · intro req'
    have hlen0 : ("" : String).utf8ByteSize = 0 := rfl
    simp only [CreateQueryRequest.Validate]
    split_ifs with h1 h2 h3 h4 h5 h6 <;> simp_all [validRecordType]

/-- C7 witness: an unsupported type is rejected with the BadRequest code and
no store mutation, a well-formed request passes validation. -/
theorem dennis_c7_witness :
    ({ Code := "BadRequest", Field := ".type",
       Message := "Record type is not supported" } : Error).Code
      = ErrorCodeBadRequest ∧
    Server.CreateQuery fileDB (encodeFormat fmtW) 0 [] ⟨0⟩
        { «Type» := "ZZZ", Name := "example.com" } =
      .error (.api { Code := "BadRequest", Field := ".type",
                     Message := "Record type is not supported" }) ∧
    CreateQueryRequest.Validate
        (some { «Type» := "A", Name := "example.com" }) = none := by
  have h := dennis_c7 fileDB (encodeFormat fmtW) 0 [] ⟨0⟩
    { «Type» := "ZZZ", Name := "example.com" }
    { Code := "BadRequest", Field := ".type",
      Message := "Record type is not supported" } (by decide)
  exact ⟨h.1, h.2.1,
    (h.2.2 { «Type» := "A", Name := "example.com" }).mpr (by decide)⟩

/-- A generated UUIDv7 value is well-formed: sixteen bytes below 256. -/
theorem uuidNewV7_wf (ms : Nat) (rnd : List Nat) : (uuidNewV7 ms rnd).wf := by
  unfold UUID.wf uuidNewV7
  refine ⟨rfl, ?_⟩
  intro b hb
  simp only [List.mem_cons, List.not_mem_nil, or_false] at hb
  rcases hb with rfl | rfl | rfl | rfl | rfl | rfl | rfl | rfl | rfl | rfl
    | rfl | rfl | rfl | rfl | rfl | rfl <;> omega

/-- A generated UUIDv7 value is never the nil UUID: its seventh byte has the
version nibble 0x7 forced on. -/
theorem uuidNewV7_ne_nil (ms : Nat) (rnd : List Nat) :
    uuidNewV7 ms rnd ≠ uuidNil := by
  intro h
  unfold uuidNewV7 uuidNil at h
  injection h with h
  simp only [List.replicate, List.cons.injEq, and_true] at h
  omega

/-- A second concrete UUID, absent from the witness document. -/
def uuidB : UUID := ⟨[1, 1, 2, 3, 4, 5, 6, 7, 8, 9, 10, 11, 12, 13, 14, 15]⟩

/-- C1 counterexample: on the Redis backend, UpdateQuery and CreateLookup on
an absent key do not return the shared NotFound kind — they wrap the plain
Redis error, and `errors.Is(err, db.ErrQueryNotFound)` is false on the
result. -/
theorem dennis_c1_counterexample :
    redis.UpdateQuery ([] : RedisStore) { qW with FinishedAt := some ⟨7⟩ } =
      .error (.wrapped "could not update JSON key"
        (.errMsg "ERR new objects must be created at the root")) ∧
    errorsIs (.wrapped "could not update JSON key"
        (.errMsg "ERR new objects must be created at the root"))
      .queryNotFound = false ∧
    redis.CreateLookup ([] : RedisStore) uuidW
        { Resolver := "one", RTT := 1, Error := "", Records := [],
          ResolvedAt := ⟨2⟩ } =
      .error (.wrapped "could not set JSON key"
        (.errMsg "ERR could not perform this operation on a key that does not exist")) ∧
    errorsIs (.wrapped "could not set JSON key"
        (.errMsg "ERR could not perform this operation on a key that does not exist"))
      .queryNotFound = false :=
  ⟨rfl, rfl, rfl, rfl⟩

/-- C1 (amended): for a Query ID absent from the store, the file backend
returns an error wrapping db.ErrQueryNotFound from all of GetQueryByID,
UpdateQuery and CreateLookup; the Redis backend does so only for
GetQueryByID (translating the redis.Nil sentinel), while its UpdateQuery
(with a non-nil FinishedAt) and CreateLookup wrap the store's plain error,
which does not satisfy errors.Is(err, db.ErrQueryNotFound). -/
theorem dennis_c1 (disk : Json) (f : format) (id : UUID) (q : Query)
    (l : Lookup) (store : RedisStore) (t : Time)
    (hd : decodeFormat disk = some f) (habs : f.getQuery id = none)
    (hqid : q.ID = id) (hfin : q.FinishedAt = some t)
    (hrabs : getField store (queryKey id) = none) :
    file.GetQueryByID disk id =
      .error (.wrapped "could not get query" .queryNotFound) ∧
    file.UpdateQuery disk q =
      .error (.wrapped "could not update query" .queryNotFound) ∧
    file.CreateLookup disk id l =
      .error (.wrapped "could not create lookup" .queryNotFound) ∧
    errorsIs (.wrapped "could not get query" .queryNotFound)
      .queryNotFound = true ∧
    errorsIs (.wrapped "could not update query" .queryNotFound)
      .queryNotFound = true ∧
    errorsIs (.wrapped "could not create lookup" .queryNotFound)
      .queryNotFound = true ∧
    redis.GetQueryByID store id = .error .queryNotFound ∧
    errorsIs .queryNotFound .queryNotFound = true ∧
    redis.UpdateQuery store q =
      .error (.wrapped "could not update JSON key"
        (.errMsg "ERR new objects must be created at the root")) ∧
    redis.CreateLookup store id l =
      .error (.wrapped "could not set JSON key"
        (.errMsg "ERR could not perform this operation on a key that does not exist")) ∧
    errorsIs (.wrapped "could not update JSON key"
        (.errMsg "ERR new objects must be created at the root"))
      .queryNotFound = false ∧
    errorsIs (.wrapped "could not set JSON key"
        (.errMsg "ERR could not perform this operation on a key that does not exist"))
      .queryNotFound = false := by
  refine ⟨file_GetQueryByID_notFound disk f id hd habs,
    file_UpdateQuery_notFound disk f q hd (hqid ▸ habs),
    file_CreateLookup_notFound disk f id l hd habs,
    rfl, rfl, rfl, ?_, rfl, ?_, ?_, rfl, rfl⟩
  · simp [redis.GetQueryByID, jsonGet, hrabs, errorsIs]
  · simp [redis.UpdateQuery, hfin, jsonSetField, hqid, hrabs]
  · simp [redis.CreateLookup, jsonArrAppend, hrabs]

/-- C1 witness: a concrete absent ID against a one-query document and an
empty Redis keyspace. -/
theorem dennis_c1_witness :
    file.GetQueryByID (encodeFormat fmtW) uuidB =
      .error (.wrapped "could not get query" .queryNotFound) ∧
    redis.GetQueryByID ([] : RedisStore) uuidB = .error .queryNotFound := by
  have h := dennis_c1 (encodeFormat fmtW) fmtW uuidB
    { qW with ID := uuidB, FinishedAt := some ⟨7⟩ }
    { Resolver := "one", RTT := 1, Error := "", Records := [],
      ResolvedAt := ⟨2⟩ }
    ([] : RedisStore) ⟨7⟩ (by decide) (by decide) (by decide) (by decide)
    rfl
  exact ⟨h.1, h.2.2.2.2.2.2.1⟩

/-- The witness Query with FinishedAt set. -/
def qWFin : Query := { qW with FinishedAt := some ⟨9⟩ }

/-- A one-query document whose Query is already finished. -/
def fmtWFin : format := { Version := 1, Queries := [qWFin] }

/-- C4 counterexample: a stored Query has FinishedAt set, and a subsequent
UpdateQuery on the file backend — passed a Query value with a nil
FinishedAt — clears it: UpdateQuery assigns the passed FinishedAt
unconditionally, so "FinishedAt, once set, is never cleared or changed" does
not hold at the storage layer. -/
theorem dennis_c4_counterexample :
    (file.storedQuery (encodeFormat fmtWFin) uuidW).map Query.FinishedAt
      = some (some ⟨9⟩) ∧
    (file.UpdateQuery (encodeFormat fmtWFin) qW).toOption.bind
        (fun d => (file.storedQuery d uuidW).map Query.FinishedAt)
      = some none := by
  decide

/-- C4 (amended): CreateLookup never changes any stored FinishedAt, and
CreateQuery (appending a fresh Query) never changes the FinishedAt of
already stored Queries, under both backends; UpdateQuery, however,
overwrites the stored FinishedAt with the passed value — on the file
backend unconditionally (clearing it when the passed value is nil), on the
Redis backend whenever the passed value is non-nil (a nil value leaves the
store untouched). -/
theorem dennis_c4 (disk : Json) (f : format) (qid qid2 : UUID)
    (qold qold2 : Query) (l : Lookup) (q qn : Query) (ms : Nat)
    (rnd : List Nat) (now : Time) (t : Time) (store : RedisStore)
    (rqold : Query)
    (hd : decodeFormat disk = some f)
    (hq : f.getQuery qid = some qold)
    (hq2 : f.getQuery qid2 = some qold2)
    (hne2 : qid2 ≠ qid)
    (hqid : q.ID = qid)
    (hfin : q.FinishedAt = some t)
    (hnid : qn.ID = qid)
    (hn : qn.FinishedAt = none)
    (hstore : getField store (queryKey qid) = some (encodeQuery rqold))
    (hwf : qid.wf)
    (hne : uuidNewV7 ms rnd ≠ qid) :
    (file.CreateLookup disk qid l).toOption.bind
        (fun d => (file.storedQuery d qid).map Query.FinishedAt)
      = some qold.FinishedAt ∧
    (file.CreateLookup disk qid l).toOption.bind
        (fun d => (file.storedQuery d qid2).map Query.FinishedAt)
      = some qold2.FinishedAt ∧
    (file.CreateQuery disk ms rnd now q).toOption.bind
        (fun p => (file.storedQuery p.1 qid).map Query.FinishedAt)
      = some qold.FinishedAt ∧
    (file.UpdateQuery disk q).toOption.bind
        (fun d => (file.storedQuery d qid).map Query.FinishedAt)
      = some q.FinishedAt ∧
    (file.UpdateQuery disk qn).toOption.bind
        (fun d => (file.storedQuery d qid).map Query.FinishedAt)
      = some none ∧
    (redis.CreateLookup store qid l).toOption.bind
        (fun s => (redis.storedQuery s qid).map Query.FinishedAt)
      = some rqold.FinishedAt ∧
    (redis.CreateQuery store ms rnd now q).toOption.bind
        (fun p => (redis.storedQuery p.1 qid).map Query.FinishedAt)
      = some rqold.FinishedAt ∧
    (redis.UpdateQuery store q).toOption.bind
        (fun s => (redis.storedQuery s qid).map Query.FinishedAt)
      = some (some t) ∧
    redis.UpdateQuery store qn = .ok store := by
  subst hqid
  have hkey : queryKey q.ID ≠ queryKey (uuidNewV7 ms rnd) := fun hk =>
    hne (queryKey_inj (uuidNewV7_wf ms rnd) hwf hk.symm)
  refine ⟨?_, ?_, ?_, ?_, ?_, ?_, ?_, ?_, ?_⟩
  · rw [file_CreateLookup_eq disk f q.ID l qold hd hq]
    simp only [Except.toOption, Option.some_bind]
    rw [storedQuery_encodeFormat, getQuery_mutQuery_self f q.ID _ qold hq rfl]
    rfl
  · rw [file_CreateLookup_eq disk f q.ID l qold hd hq]
    simp only [Except.toOption, Option.some_bind]
    rw [storedQuery_encodeFormat,
      getQuery_mutQuery_ne f q.ID qid2
        (fun x => { x with Lookups := x.Lookups ++ [l] }) (fun _ => rfl) hne2,
      hq2]
    rfl
  · rw [file_CreateQuery_eq disk f ms rnd now q hd]
    simp only [Except.toOption, Option.some_bind]
    rw [storedQuery_encodeFormat, getQuery_append_of_found f q.ID qold _ hq]
    rfl
  · rw [file_UpdateQuery_eq disk f q qold hd hq]
    simp only [Except.toOption, Option.some_bind]
    rw [storedQuery_encodeFormat, getQuery_mutQuery_self f q.ID _ qold hq rfl]
    rfl
  · rw [file_UpdateQuery_eq disk f qn qold hd (by rw [hnid]; exact hq)]
    simp only [Except.toOption, Option.some_bind]
    rw [storedQuery_encodeFormat, hnid,
      getQuery_mutQuery_self f q.ID _ qold hq rfl]
    simp [hn]
  · rw [redis_CreateLookup_eq store q.ID l rqold hstore]
    simp only [Except.toOption, Option.some_bind]
    rw [redis_storedQuery_objSet_self]
    rfl
  · simp only [redis.CreateQuery, jsonSetRoot, Except.toOption,
      Option.some_bind]
    unfold redis.storedQuery
    rw [getField_objSet_ne store _ _ _ hkey, hstore]
    simp [decode_encode_query]
  · rw [redis_UpdateQuery_eq store q rqold t hfin hstore]
    simp only [Except.toOption, Option.some_bind]
    rw [redis_storedQuery_objSet_self]
    rfl
  · simp [redis.UpdateQuery, hn]

theorem getField_cons_self (k : String) (v : Json)
    (rest : List (String × Json)) : getField ((k, v) :: rest) k = some v := by
  simp [getField]

/-- A second stored Query for witnesses, under a different ID. -/
def qB : Query :=
  { ID := uuidB, «Type» := "TXT", Name := "example.org", Lookups := [],
    CreatedAt := ⟨2⟩, FinishedAt := some ⟨3⟩ }

/-- A two-query document for witnesses. -/
def fmtW2 : format := { Version := 1, Queries := [qW, qB] }

/-- C4 witness: appending a Lookup preserves the stored FinishedAt, and a
nil-FinishedAt UpdateQuery on Redis leaves the keyspace untouched. -/
theorem dennis_c4_witness :
    (file.CreateLookup (encodeFormat fmtW2) uuidW
        { Resolver := "one", RTT := 1, Error := "", Records := [],
          ResolvedAt := ⟨2⟩ }).toOption.bind
        (fun d => (file.storedQuery d uuidW).map Query.FinishedAt)
      = some qW.FinishedAt ∧
    redis.UpdateQuery [(queryKey uuidW, encodeQuery qW)] qW =
      .ok [(queryKey uuidW, encodeQuery qW)] := by
  have h := dennis_c4 (encodeFormat fmtW2) fmtW2 uuidW uuidB qW qB
    { Resolver := "one", RTT := 1, Error := "", Records := [],
      ResolvedAt := ⟨2⟩ }
    qWFin qW 1 [2, 3, 4, 5, 6, 7, 8, 9, 10, 11] ⟨4⟩ ⟨9⟩
    [(queryKey uuidW, encodeQuery qW)] qW
    (by decide) (by decide) (by decide) (by decide) (by decide) (by decide)
    (by decide) (by decide) (getField_cons_self _ _ _) (by decide) (by decide)
  exact ⟨h.1, h.2.2.2.2.2.2.2.2⟩

/-- C5: UpdateQuery propagates only FinishedAt: the stored Query afterwards
is the stored Query before with FinishedAt replaced by the passed value,
even when the passed Query populates Type, Name, Lookups or CreatedAt
differently — under the file backend for any passed value, and under the
Redis backend for a non-nil passed FinishedAt (a nil one changes nothing at
all). -/
theorem dennis_c5 (disk : Json) (f : format) (q qold : Query)
    (store : RedisStore) (rq rqold : Query) (t : Time)
    (hd : decodeFormat disk = some f) (hq : f.getQuery q.ID = some qold)
    (hstore : getField store (queryKey rq.ID) = some (encodeQuery rqold))
    (hrfin : rq.FinishedAt = some t) :
    (file.UpdateQuery disk q).toOption.bind (fun d => file.storedQuery d q.ID)
      = some { qold with FinishedAt := q.FinishedAt } ∧
    (redis.UpdateQuery store rq).toOption.bind
        (fun s => redis.storedQuery s rq.ID)
      = some { rqold with FinishedAt := some t } ∧
    (∀ rq2 : Query, rq2.FinishedAt = none →
      redis.UpdateQuery store rq2 = .ok store) := by
  refine ⟨?_, ?_, fun rq2 h2 => by simp [redis.UpdateQuery, h2]⟩
  · rw [file_UpdateQuery_eq disk f q qold hd hq]
    simp only [Except.toOption, Option.some_bind]
    rw [storedQuery_encodeFormat, getQuery_mutQuery_self f q.ID _ qold hq rfl]
  · rw [redis_UpdateQuery_eq store rq rqold t hrfin hstore]
    simp only [Except.toOption, Option.some_bind]
    rw [redis_storedQuery_objSet_self]

/-- A passed Query populating every field differently from the stored one. -/
def qOther : Query :=
  { ID := uuidW, «Type» := "NS", Name := "other.example",
    Lookups := [{ Resolver := "two", RTT := 2, Error := "", Records := [],
                  ResolvedAt := ⟨6⟩ }],
    CreatedAt := ⟨77⟩, FinishedAt := some ⟨42⟩ }

/-- C5 witness: updating with a fully differently-populated Query changes
only FinishedAt under both backends. -/
theorem dennis_c5_witness :
    (file.UpdateQuery (encodeFormat fmtW) qOther).toOption.bind
        (fun d => file.storedQuery d uuidW)
      = some { qW with FinishedAt := some ⟨42⟩ } ∧
    (redis.UpdateQuery [(queryKey uuidW, encodeQuery qW)] qOther).toOption.bind
        (fun s => redis.storedQuery s uuidW)
      = some { qW with FinishedAt := some ⟨42⟩ } := by
  have h := dennis_c5 (encodeFormat fmtW) fmtW qOther qW
    [(queryKey uuidW, encodeQuery qW)] qOther qW ⟨42⟩ (by decide) (by decide)
    (getField_cons_self _ _ _) (by decide)
  exact ⟨h.1, h.2.1⟩

/-- C6: a valid CreateQuery that persists successfully returns a Query whose
ID is the storage-assigned UUIDv7 (never the nil UUID, regardless of what
the caller supplied) and whose Lookups sequence is empty; the stored
document holds exactly one Query under that ID (file backend), and the
Redis backend stores the same Query under its derived key. -/
theorem dennis_c6 (disk : Json) (f : format) (ms : Nat) (rnd : List Nat)
    (now : Time) (req : CreateQueryRequest) (store : RedisStore)
    (qnew : Query)
    (hd : decodeFormat disk = some f)
    (hv : CreateQueryRequest.Validate (some req) = none)
    (hqnew : qnew = { ID := uuidNewV7 ms rnd, «Type» := req.«Type»,
                      Name := req.Name, Lookups := [], CreatedAt := now,
                      FinishedAt := none })
    (hfresh : f.getQuery (uuidNewV7 ms rnd) = none) :
    Server.CreateQuery fileDB disk ms rnd now req =
      .ok (encodeFormat { f with Queries := f.Queries ++ [qnew] },
           { Query := qnew }) ∧
    qnew.Lookups = [] ∧
    qnew.ID = uuidNewV7 ms rnd ∧
    qnew.ID ≠ uuidNil ∧
    file.storedQuery
        (encodeFormat { f with Queries := f.Queries ++ [qnew] }) qnew.ID
      = some qnew ∧
    ((f.Queries ++ [qnew]).filter (fun x => x.ID == qnew.ID)).length = 1 ∧
    Server.CreateQuery redisDB store ms rnd now req =
      .ok (objSet store (queryKey qnew.ID) (encodeQuery qnew),
           { Query := qnew }) ∧
    redis.storedQuery (objSet store (queryKey qnew.ID) (encodeQuery qnew))
        qnew.ID = some qnew := by
  subst hqnew
  have hfilter : f.Queries.filter
      (fun x => x.ID == uuidNewV7 ms rnd) = [] := by
    rw [List.filter_eq_nil_iff]
    intro x hx
    have := List.find?_eq_none.mp hfresh x hx
    simpa using this
  refine ⟨?_, rfl, rfl, uuidNewV7_ne_nil ms rnd, ?_, ?_, ?_, ?_⟩
  · simp only [Server.CreateQuery, hv]
    rw [show fileDB.CreateQuery = file.CreateQuery from rfl,
      file_CreateQuery_eq disk f ms rnd now _ hd]
  · rw [storedQuery_encodeFormat]
    exact getQuery_append_fresh f _ hfresh
  · rw [List.filter_append, hfilter]
    simp
  · simp only [Server.CreateQuery, hv]
    rfl
  · exact redis_storedQuery_objSet_self store _ _

/-- The Query returned by the C6 witness call. -/
def qC6 : Query :=
  { ID := uuidNewV7 1 [2, 3, 4, 5, 6, 7, 8, 9, 10, 11], «Type» := "A",
    Name := "example.com", Lookups := [], CreatedAt := ⟨4⟩,
    FinishedAt := none }

/-- C6 witness: a concrete valid request against the one-query document and
an empty Redis keyspace. -/
theorem dennis_c6_witness :
    qC6.Lookups = [] ∧
    qC6.ID ≠ uuidNil ∧
    file.storedQuery
        (encodeFormat { fmtW with Queries := fmtW.Queries ++ [qC6] }) qC6.ID
      = some qC6 ∧
    ((fmtW.Queries ++ [qC6]).filter (fun x => x.ID == qC6.ID)).length = 1 := by
  have h := dennis_c6 (encodeFormat fmtW) fmtW 1 [2, 3, 4, 5, 6, 7, 8, 9, 10, 11]
    ⟨4⟩ { «Type» := "A", Name := "example.com" } ([] : RedisStore) qC6
    (by decide) (by decide) (by decide) (by decide)
  exact ⟨h.2.1, h.2.2.2.1, h.2.2.2.2.1, h.2.2.2.2.2.1⟩

/-- C8: persisting a Query through the file backend and retrieving it by its
assigned ID from the re-decoded on-disk JSON document yields the Query
field-for-field, including nested Lookups and Records (the Query argument is
arbitrary, so the nested structures round-trip). -/
theorem dennis_c8 (disk : Json) (f : format) (q : Query) (ms : Nat)
    (rnd : List Nat) (now : Time)
    (hd : decodeFormat disk = some f)
    (hfresh : f.getQuery (uuidNewV7 ms rnd) = none) :
    file.CreateQuery disk ms rnd now q =
      .ok (encodeFormat { f with Queries := f.Queries
             ++ [{ q with ID := uuidNewV7 ms rnd, CreatedAt := now }] },
           { q with ID := uuidNewV7 ms rnd, CreatedAt := now }) ∧
    file.GetQueryByID
        (encodeFormat { f with Queries := f.Queries
           ++ [{ q with ID := uuidNewV7 ms rnd, CreatedAt := now }] })
        (uuidNewV7 ms rnd)
      = .ok { q with ID := uuidNewV7 ms rnd, CreatedAt := now } := by
  refine ⟨file_CreateQuery_eq disk f ms rnd now q hd, ?_⟩
  exact file_GetQueryByID_found _ _ _ _ (decode_encode_format _)
    (getQuery_append_fresh f _ hfresh)

/-- A Lookup with a nested Record, for the C8 witness. -/
def lkFull : Lookup :=
  { Resolver := "one", RTT := 12, Error := "",
    Records := [{ TTL := 300, Priority := 10, Weight := 0, Port := 0,
                  Tag := "", Content := ["mail.example.com."] }],
    ResolvedAt := ⟨3⟩ }

/-- A Query with populated nested Lookups and Records, for the C8 witness. -/
def qFull : Query :=
  { ID := uuidNil, «Type» := "MX", Name := "example.com",
    Lookups := [lkFull], CreatedAt := ⟨0⟩, FinishedAt := some ⟨4⟩ }

/-- The storage-assigned ID of the C8 witness call. -/
def uuidC8 : UUID := uuidNewV7 1 [2, 3, 4, 5, 6, 7, 8, 9, 10, 11]

/-- The C8 witness Query as persisted (ID and CreatedAt assigned). -/
def qFullStored : Query := { qFull with ID := uuidC8, CreatedAt := ⟨5⟩ }

/-- C8 witness: a Query carrying a Lookup with a Record survives the
persist-reopen-retrieve round trip unchanged. -/
theorem dennis_c8_witness :
    file.GetQueryByID
        (encodeFormat { fmtW with Queries := fmtW.Queries ++ [qFullStored] })
        uuidC8
      = .ok qFullStored :=
  (dennis_c8 (encodeFormat fmtW) fmtW qFull 1 [2, 3, 4, 5, 6, 7, 8, 9, 10, 11]
    ⟨5⟩ (by decide) (by decide)).2

end Dennis
